import Mathlib

/-!
Verification of the SMGA plugin core (SMGA.py): audio-file discovery,
genre-tag extraction, genre normalization against a keyword taxonomy,
distribution/percentage computation, and the multi-genre overlap count.

The Python functions are shallowly embedded as executable Lean functions.
Python dicts (which preserve insertion order) are embedded as association
lists; the external file system and the mutagen tag reader are abstracted
as explicit data the functions receive.
-/

namespace SMGA

/-- The value stored under a tag key in an audio file's metadata container:
mutagen may return either a plain string or a list of strings. -/
inductive TagVal where
  | str (s : String)
  | list (l : List String)
  deriving DecidableEq, Repr

/-- Abstract model of one audio file as seen by `get_genre`:
`readable` is false when `File(path)` raises or returns a falsy object;
`tags` is the metadata mapping (insertion-ordered, as in Python). -/
structure AudioFile where
  readable : Bool
  tags : List (String × TagVal)
  deriving DecidableEq, Repr

/-- Association-list lookup, modelling `tag in audio.tags` / `audio.tags[tag]`. -/
def lookupTag (tags : List (String × TagVal)) (k : String) : Option TagVal :=
  (tags.find? (fun p => p.1 = k)).map (fun p => p.2)

/-- Python `str.title()`: the first character of each run of letters is
upper-cased and the remaining letters of the run are lower-cased. -/
def titleAux : Bool → List Char → List Char
  | _, [] => []
  | prevAlpha, c :: cs =>
    if c.isAlpha then
      (if prevAlpha then c.toLower else c.toUpper) :: titleAux true cs
    else
      c :: titleAux false cs

/-- Python `str.title()` on a whole string. -/
def pyTitle (s : String) : String :=
  ⟨titleAux false s.data⟩

/-- Does the second character list start with the first? -/
def startsWithL : List Char → List Char → Bool
  | [], _ => true
  | _ :: _, [] => false
  | p :: ps, c :: cs => p = c && startsWithL ps cs

/-- Does the second character list contain the first as a contiguous run? -/
def containsL (pat : List Char) : List Char → Bool
  | [] => startsWithL pat []
  | c :: cs => startsWithL pat (c :: cs) || containsL pat cs

/-- Python substring test `pat in s`. -/
def pySubstr (pat s : String) : Bool :=
  containsL pat.data s.data

/-- Python `str.lower()` (ASCII model). -/
def pyLower (s : String) : String :=
  ⟨s.data.map Char.toLower⟩

/-- Python `str.strip()`: remove leading and trailing whitespace. -/
def pyStrip (s : String) : String :=
  ⟨((s.data.dropWhile Char.isWhitespace).reverse.dropWhile Char.isWhitespace).reverse⟩

/-- Helper for `splitSemi`: split a character list at every `;`,
accumulating the current piece in reverse. -/
def splitSemiAux : List Char → List Char → List String
  | [], acc => [⟨acc.reverse⟩]
  | c :: cs, acc =>
    if c = ';' then ⟨acc.reverse⟩ :: splitSemiAux cs []
    else splitSemiAux cs (c :: acc)

/-- Python `s.split(';')`: the pieces of `s` between `;` separators; the
empty string yields `[""]`. -/
def splitSemi (s : String) : List String :=
  splitSemiAux s.data []

/-- Normalization applied to each piece of a split genre tag:
`g.strip().lower()` in the source. -/
def pieceNorm (g : String) : String :=
  pyLower (pyStrip g)

/-- Embedding of `get_genre` (SMGA.py lines 33-46): extract the genre metadata of one
audio file.  Unreadable file: empty list.  Otherwise the tag keys
`genre`, `GENRE`, `TCON` are searched in order; the first present value is
used (first element if it is a list; `genre[0]` on an empty list raises
IndexError, which the surrounding `except` turns into an empty result);
the string is split on `;` and each piece is trimmed and lower-cased. -/
def get_genre (f : AudioFile) : List String :=
  if !f.readable then []
  else
    match lookupTag f.tags "genre" <|> lookupTag f.tags "GENRE" <|> lookupTag f.tags "TCON" with
    | none => []
    | some (.str s) => (splitSemi s).map pieceNorm
    | some (.list []) => []
    | some (.list (v :: _)) => (splitSemi v).map pieceNorm

/-- A taxonomy entry: simplified genre name together with its keywords.
The taxonomy is an insertion-ordered mapping, embedded as a list. -/
abbrev Taxonomy := List (String × List String)

/-- The inner loop of `map_to_simplified_genres`: scan taxonomy entries in
order and stop at the first whose keyword list has a member that is a
substring of the (lower-cased, trimmed) genre string. -/
def matchGenre (genreLower : String) : Taxonomy → Option String
  | [] => none
  | (simplified_genre, keywords) :: rest =>
    if keywords.any (fun keyword => pySubstr keyword genreLower) then
      some simplified_genre
    else
      matchGenre genreLower rest

/-- Embedding of `map_to_simplified_genres` (SMGA.py lines 49-67): map each complex
genre to a simplified category, returning the mapped list together with
the number of entries no taxonomy keyword matched.  The source's
`if matched:` test is Python truthiness: both `None` (no taxonomy entry
matched) and an empty-string simplified name are falsy, and either falls
through to the title-case/unmapped branch.  Note the loop still breaks at
the first matching entry, so an empty-named first match shadows any later
matching entry. -/
def map_to_simplified_genres (complex_genres : List String) (simplified_keywords : Taxonomy) :
    List String × Nat :=
  match complex_genres with
  | [] => ([], 0)
  | genre :: rest =>
    let genre_lower := pyStrip (pyLower genre)
    let entry :=
      match matchGenre genre_lower simplified_keywords with
      | some matched =>
        if matched = "" then (pyTitle genre, 1) else (matched, 0)
      | none => (pyTitle genre, 1)
    let tail := map_to_simplified_genres rest simplified_keywords
    (entry.1 :: tail.1, entry.2 + tail.2)

/-- A Python value appearing in the `genres` accumulator of
`calculate_genre_distribution`.  Without simplification only strings are
appended; with simplification the code extends the accumulator with the
un-unpacked `(list, int)` return of `map_to_simplified_genres`, so a list
value and an int value land in the accumulator. -/
inductive PyVal where
  | str (s : String)
  | list (l : List String)
  | int (n : Nat)
  deriving DecidableEq, Repr

/-- A Python list is unhashable: hashing it (as `Counter` does to every
element) raises `TypeError`. -/
def PyVal.unhashable : PyVal → Bool
  | .list _ => true
  | _ => false

/-- The Python exceptions the embedded code can raise. -/
inductive PyErr where
  | typeError
  | fileNotFoundError (msg : String)
  | jsonDecodeError
  deriving DecidableEq, Repr

/-- Distinct elements of a list in first-occurrence order (the key order
of a Python dict or `Counter` built by repeated insertion), skipping the
elements already in `seen`. -/
def pyKeysFrom {α : Type} [DecidableEq α] (seen : List α) : List α → List α
  | [] => []
  | v :: vs => if v ∈ seen then pyKeysFrom seen vs else v :: pyKeysFrom (v :: seen) vs

/-- Distinct elements of a list in first-occurrence order. -/
def pyDedup {α : Type} [DecidableEq α] (l : List α) : List α :=
  pyKeysFrom [] l

/-- Model of `collections.Counter` on a list of Python values: raises `TypeError`
if any element is unhashable, otherwise yields each distinct element with
its multiplicity, keyed in first-occurrence order (as a Python dict is). -/
def pyCounter (vals : List PyVal) : Except PyErr (List (PyVal × Nat)) :=
  if vals.any PyVal.unhashable then .error .typeError
  else .ok ((pyDedup vals).map (fun v => (v, vals.count v)))

/-- The value returned by `calculate_genre_distribution`: the
`total_tracks == 0` branch returns a 3-tuple, the other branch a 2-tuple. -/
inductive DistResult where
  | triple (cnt : List (PyVal × Nat)) (perc : List (PyVal × ℚ)) (total : Nat)
  | pair (cnt : List (PyVal × Nat)) (perc : List (PyVal × ℚ))
  deriving DecidableEq, Repr

/-- The per-file extension of the `genres` accumulator in
`calculate_genre_distribution` (lines 74-78): `genre_list = get_genre(file)`;
if `use_simple_genres`, `genre_list` is rebound to the *pair* returned by
`map_to_simplified_genres`, and `genres.extend(genre_list)` then appends the
pair's two elements (the simplified list and the unmapped int). -/
def distFileVals (use_simple_genres : Bool) (simplified_keywords : Taxonomy)
    (f : AudioFile) : List PyVal :=
  let genre_list := get_genre f
  if use_simple_genres then
    let pr := map_to_simplified_genres genre_list simplified_keywords
    [PyVal.list pr.1, PyVal.int pr.2]
  else
    genre_list.map PyVal.str

/-- Embedding of `calculate_genre_distribution` (SMGA.py lines 71-87). -/
def calculate_genre_distribution (audio_files : List AudioFile)
    (use_simple_genres : Bool) (simplified_keywords : Taxonomy) :
    Except PyErr DistResult :=
  let genres : List PyVal :=
    (audio_files.map (distFileVals use_simple_genres simplified_keywords)).flatten
  match pyCounter genres with
  | .error e => .error e
  | .ok genre_count =>
    let total_tracks := genres.length
    if total_tracks = 0 then
      .ok (.triple genre_count [] 0)
    else
      .ok (.pair genre_count
        (genre_count.map (fun p => (p.1, (p.2 : ℚ) / (total_tracks : ℚ) * 100))))

/-- The percentage computation of lines 80-87 on a flat list of genre
strings (the shape the accumulator has on the non-simplified path, and the
shape `perform_analysis` always feeds it): `Counter`, guard on zero total,
then `count / total * 100` per counter entry. -/
def genre_percentage_of (genres : List String) : List (String × ℚ) :=
  if genres.length = 0 then []
  else (pyDedup genres).map (fun g => (g, (genres.count g : ℚ) / (genres.length : ℚ) * 100))

/-- Embedding of `calculate_overlap` (SMGA.py lines 90-97): count the files whose
extracted genre list has more than one entry. -/
def calculate_overlap (audio_files : List AudioFile) : Nat :=
  audio_files.foldl (fun overlap_count f =>
    if 1 < (get_genre f).length then overlap_count + 1 else overlap_count) 0

/-- Model of `os.path.splitext(name)[1]` for a bare file name: the suffix starting
at the last dot, unless every character before that dot is itself a dot
(leading dots are part of the base name), in which case the extension is
empty. -/
def splitext_ext (s : String) : String :=
  let cs := s.data
  match cs.reverse.findIdx? (fun c => c = '.') with
  | none => ""
  | some j =>
    let d := cs.length - 1 - j
    if (cs.take d).all (fun c => c = '.') then "" else ⟨cs.drop d⟩

/-- The audio-extension allow-list of `get_audio_files`. -/
def audio_extensions : List String :=
  [".mp3", ".flac", ".wav", ".aac", ".m4a", ".ogg", ".wma"]

/-- Model of `os.path.join(root, file)` in the shape `os.walk` produces it:
root path, separator, bare file name. -/
def joinPath (root file : String) : String :=
  root ++ "/" ++ file

/-- Embedding of `get_audio_files` (SMGA.py lines 22-30).  The external `os.walk`
traversal is abstracted as its output: a list of `(root, files)` pairs.
The function keeps exactly the names whose extension, lower-cased, is in
the allow-list, joined onto their root. -/
def get_audio_files (walk : List (String × List String)) : List String :=
  (walk.map (fun rf =>
    (rf.2.filter (fun file => audio_extensions.contains (pyLower (splitext_ext file)))).map
      (joinPath rf.1))).flatten

/-- The state of the external configuration resource
`simplified_genre.json`: absent, present but not parseable as JSON, or
present with a parsed taxonomy. -/
inductive ConfigResource where
  | absent
  | unparseable
  | parsed (tax : Taxonomy)
  deriving DecidableEq, Repr

/-- Embedding of `load_simplified_genres` (SMGA.py lines 10-19): raise
`FileNotFoundError` when the file does not exist, otherwise return
`json.load`, which raises `json.JSONDecodeError` on malformed content. -/
def load_simplified_genres (res : ConfigResource) : Except PyErr Taxonomy :=
  match res with
  | .absent => .error (.fileNotFoundError "Simplified genre file not found")
  | .unparseable => .error .jsonDecodeError
  | .parsed tax => .ok tax

/-- What `main` (SMGA.py lines 226-239) yields to the host: `unavailable`
models `return None` after reporting the error, `widget` models handing
the loaded taxonomy on to `smga_main_logic`. -/
inductive MainResult where
  | unavailable
  | widget (tax : Taxonomy)
  deriving DecidableEq, Repr

/-- Embedding of `main` (SMGA.py lines 226-239): the `try` around
`load_simplified_genres` catches `FileNotFoundError` only (reporting it
and returning `None`); any other exception propagates to the caller. -/
def main (res : ConfigResource) : Except PyErr MainResult :=
  match load_simplified_genres res with
  | .ok simplified_keywords => .ok (.widget simplified_keywords)
  | .error (.fileNotFoundError _) => .ok .unavailable
  | .error e => .error e

/-- The genre aggregation of `perform_analysis` (SMGA.py lines 176-183):
the raw genre lists of all files are flattened first, and
`map_to_simplified_genres` is applied once to the flattened list when the
simple mode is selected. -/
def perform_analysis_genres (audio_files : List AudioFile)
    (use_simple_genres : Bool) (simplified_keywords : Taxonomy) :
    List String × Nat :=
  let genres := (audio_files.map get_genre).flatten
  if use_simple_genres then
    map_to_simplified_genres genres simplified_keywords
  else
    (genres, 0)

/-- The loop body of `map_to_simplified_genres` on a single genre string:
the first taxonomy entry with a keyword-substring match, provided its name
is truthy (non-empty); else the title-cased raw string. -/
def simplifyEntry (simplified_keywords : Taxonomy) (genre : String) : String :=
  match matchGenre (pyStrip (pyLower genre)) simplified_keywords with
  | some matched => if matched = "" then pyTitle genre else matched
  | none => pyTitle genre

/-- The spec's example taxonomy:
`{"rock": ["rock"], "electronic": ["techno","house"]}`. -/
def exampleTaxonomy : Taxonomy :=
  [("rock", ["rock"]), ("electronic", ["techno", "house"])]

/-- The spec's example file A, tagged `"Classic Rock"`. -/
def fileA : AudioFile := ⟨true, [("genre", TagVal.str "Classic Rock")]⟩

/-- The spec's example file B, tagged `"Deep House"`. -/
def fileB : AudioFile := ⟨true, [("genre", TagVal.str "Deep House")]⟩

/-- The spec's example file C, untagged. -/
def fileC : AudioFile := ⟨true, []⟩

/-! ## Helper lemmas -/

theorem mem_pyKeysFrom {α : Type} [DecidableEq α] (a : α) (l : List α) :
    ∀ seen : List α, a ∈ pyKeysFrom seen l ↔ a ∈ l ∧ a ∉ seen := by
  induction l with
  | nil => intro seen; simp [pyKeysFrom]
  | cons v vs ih =>
    intro seen
    by_cases hv : v ∈ seen
    · simp only [pyKeysFrom, if_pos hv, ih]
      constructor
      · rintro ⟨h1, h2⟩
        exact ⟨List.mem_cons_of_mem _ h1, h2⟩
      · rintro ⟨h1, h2⟩
        rcases List.mem_cons.mp h1 with rfl | h1
        · exact absurd hv h2
        · exact ⟨h1, h2⟩
    · simp only [pyKeysFrom, if_neg hv, List.mem_cons, ih]
      constructor
      · rintro (rfl | ⟨h1, h2⟩)
        · exact ⟨Or.inl rfl, hv⟩
        · simp only [List.mem_cons, not_or] at h2
          exact ⟨Or.inr h1, h2.2⟩
      · rintro ⟨rfl | h1, h2⟩
        · exact Or.inl rfl
        · by_cases hav : a = v
          · exact Or.inl hav
          · exact Or.inr ⟨h1, by simp [List.mem_cons, hav, h2]⟩

theorem nodup_pyKeysFrom {α : Type} [DecidableEq α] (l : List α) :
    ∀ seen : List α, (pyKeysFrom seen l).Nodup := by
  induction l with
  | nil => intro seen; simp [pyKeysFrom]
  | cons v vs ih =>
    intro seen
    by_cases hv : v ∈ seen
    · simpa [pyKeysFrom, if_pos hv] using ih seen
    · simp only [pyKeysFrom, if_neg hv]
      refine List.Nodup.cons ?_ (ih (v :: seen))
      intro hmem
      exact ((mem_pyKeysFrom v vs (v :: seen)).mp hmem).2 (List.mem_cons_self v seen)

theorem pyDedup_perm_dedup {α : Type} [DecidableEq α] (l : List α) :
    (pyDedup l).Perm l.dedup := by
  refine (List.perm_ext_iff_of_nodup (nodup_pyKeysFrom l []) l.nodup_dedup).mpr ?_
  intro a
  simp [pyDedup, mem_pyKeysFrom, List.mem_dedup]

theorem matchGenre_eq_find (gl : String) (tax : Taxonomy) :
    matchGenre gl tax =
      (tax.find? (fun p => p.2.any (fun k => pySubstr k gl))).map Prod.fst := by
  induction tax with
  | nil => rfl
  | cons e rest ih =>
    obtain ⟨name, kws⟩ := e
    by_cases h : kws.any (fun k => pySubstr k gl)
    · simp [matchGenre, h, List.find?_cons_of_pos]
    · simp only [Bool.not_eq_true] at h
      simp [matchGenre, h, List.find?_cons_of_neg, ih]

theorem map_simplified_eq_map (gs : List String) (tax : Taxonomy) :
    (map_to_simplified_genres gs tax).1 = gs.map (simplifyEntry tax) := by
  induction gs with
  | nil => rfl
  | cons g rest ih =>
    simp only [map_to_simplified_genres, List.map_cons, simplifyEntry]
    cases matchGenre (pyStrip (pyLower g)) tax
    · simp [ih]
    · rename_i m
      by_cases hm : m = "" <;> simp [hm, ih]

theorem map_simplified_append (l1 l2 : List String) (tax : Taxonomy) :
    map_to_simplified_genres (l1 ++ l2) tax =
      ((map_to_simplified_genres l1 tax).1 ++ (map_to_simplified_genres l2 tax).1,
       (map_to_simplified_genres l1 tax).2 + (map_to_simplified_genres l2 tax).2) := by
  induction l1 with
  | nil => simp [map_to_simplified_genres]
  | cons g rest ih =>
    simp only [List.cons_append, map_to_simplified_genres]
    cases matchGenre (pyStrip (pyLower g)) tax
    · simp [ih, Nat.add_assoc]
    · rename_i m
      by_cases hm : m = "" <;> simp [hm, ih, Nat.add_assoc]

theorem overlap_foldl (files : List AudioFile) :
    ∀ acc : Nat,
      files.foldl
        (fun overlap_count f =>
          if 1 < (get_genre f).length then overlap_count + 1 else overlap_count) acc =
      acc + files.countP (fun f => decide (1 < (get_genre f).length)) := by
  induction files with
  | nil => intro acc; simp
  | cons f rest ih =>
    intro acc
    by_cases h : 1 < (get_genre f).length
    · simp [List.foldl_cons, List.countP_cons, h, ih]
      omega
    · simp [List.foldl_cons, List.countP_cons, h, ih]

/-! ## Claim theorems -/

/-- C5: `calculate_overlap` returns exactly the number of files whose raw
genre list has more than one entry; files with zero or one raw genre never
contribute (and the function takes no simplify flag at all, so the result
cannot depend on it). -/
theorem overlap_counts_multi_genre_files (audio_files : List AudioFile) :
    calculate_overlap audio_files =
      audio_files.countP (fun f => decide (1 < (get_genre f).length)) := by
  rw [calculate_overlap, overlap_foldl]
  exact Nat.zero_add _

/-- C6 counterexample: at taxonomy `{"": ["a"]}` and raw genre `"a"` the
(only) entry matches the claim's selection criterion, yet the program
returns the title-cased unmapped result `(["A"], 1)` — not `([""], 0)` —
because `if matched:` treats the empty-string name as falsy. -/
theorem normalizer_empty_name_counterexample :
    List.find? (fun p => p.2.any (fun k => pySubstr k (pyStrip (pyLower "a"))))
        ([("", ["a"])] : Taxonomy) = some ("", ["a"])
    ∧ map_to_simplified_genres ["a"] [("", ["a"])] = (["A"], 1) := by decide

/-- C6 amended: the normalizer scans taxonomy entries in iteration order
and stops at the first entry one of whose keywords is a substring of the
lower-cased, trimmed raw string; if that entry's simplified name is
non-empty it is selected with unmapped delta 0 (first-match-wins); if the
matched name is the empty string (falsy under Python's `if matched:`) or
no entry matches, the output entry is the title-cased raw string and the
per-call unmapped count increases by exactly one. -/
theorem normalizer_first_match_wins (g : String) (tax : Taxonomy) :
    (∀ n kws,
        tax.find? (fun p => p.2.any (fun k => pySubstr k (pyStrip (pyLower g)))) = some (n, kws) →
        n ≠ "" →
        map_to_simplified_genres [g] tax = ([n], 0))
    ∧ (∀ kws,
        tax.find? (fun p => p.2.any (fun k => pySubstr k (pyStrip (pyLower g))))
          = some ("", kws) →
        map_to_simplified_genres [g] tax = ([pyTitle g], 1))
    ∧ (tax.find? (fun p => p.2.any (fun k => pySubstr k (pyStrip (pyLower g)))) = none →
        map_to_simplified_genres [g] tax = ([pyTitle g], 1)) := by
  refine ⟨?_, ?_, ?_⟩
  · intro n kws h hn
    simp [map_to_simplified_genres, matchGenre_eq_find, h, hn]
  · intro kws h
    simp [map_to_simplified_genres, matchGenre_eq_find, h]
  · intro h
    simp [map_to_simplified_genres, matchGenre_eq_find, h]

/-- Witness for C6 (amended) at the spec's example: `"Classic Rock"`
matches the entry `("rock", ["rock"])` first, and the name `"rock"` is
truthy, so it maps to `"rock"` with no unmapped entry. -/
theorem normalizer_first_match_wins_witness :
    map_to_simplified_genres ["Classic Rock"] exampleTaxonomy = (["rock"], 0) :=
  (normalizer_first_match_wins "Classic Rock" exampleTaxonomy).1 "rock" ["rock"]
    (by rfl) (by decide)

/-- C7: the normalizer maps the i-th input entry to the i-th output entry
(it is a per-entry map), so no entry is dropped or reordered and the output
length equals the input length. -/
theorem normalizer_preserves_shape (gs : List String) (tax : Taxonomy) :
    (map_to_simplified_genres gs tax).1 = gs.map (simplifyEntry tax)
    ∧ (map_to_simplified_genres gs tax).1.length = gs.length := by
  refine ⟨map_simplified_eq_map gs tax, ?_⟩
  rw [map_simplified_eq_map gs tax, List.length_map]

/-- C10: applying the normalizer once to the concatenation of all files'
raw genre lists (as `perform_analysis` does) yields exactly the
concatenation of the per-file simplified lists (hence the same multiset and
the same counts) and the sum of the per-file unmapped deltas. -/
theorem flattened_normalization_equivalent (audio_files : List AudioFile) (tax : Taxonomy) :
    perform_analysis_genres audio_files true tax =
      ((audio_files.map (fun f => (map_to_simplified_genres (get_genre f) tax).1)).flatten,
       (audio_files.map (fun f => (map_to_simplified_genres (get_genre f) tax).2)).sum) := by
  have h : perform_analysis_genres audio_files true tax
      = map_to_simplified_genres (audio_files.map get_genre).flatten tax := rfl
  rw [h]; clear h
  induction audio_files with
  | nil => rfl
  | cons f rest ih =>
    simp only [List.map_cons, List.flatten_cons, map_simplified_append, List.sum_cons]
    rw [ih]

/-- C4: the percentage computation returns values summing to exactly 100
(computed over ℚ; the Python floats round this) whenever the total number
of genre occurrences is positive, and the empty mapping when it is zero. -/
theorem percentage_sum_100_or_empty (genres : List String) :
    (genres.length ≠ 0 →
      ((genre_percentage_of genres).map (fun p => p.2)).sum = 100)
    ∧ (genres.length = 0 → genre_percentage_of genres = []) := by
  constructor
  · intro h
    rw [genre_percentage_of, if_neg h, List.map_map]
    have hfun :
        ((fun p : String × ℚ => p.2) ∘ fun g =>
            (g, (genres.count g : ℚ) / (genres.length : ℚ) * 100)) =
          fun g => (genres.count g : ℚ) * (100 / (genres.length : ℚ)) := by
      funext g
      simp only [Function.comp]
      ring
    rw [hfun]
    have hperm :
        ((pyDedup genres).map
            (fun g => (genres.count g : ℚ) * (100 / (genres.length : ℚ)))).Perm
          (genres.dedup.map
            (fun g => (genres.count g : ℚ) * (100 / (genres.length : ℚ)))) :=
      (pyDedup_perm_dedup genres).map _
    rw [hperm.sum_eq, List.sum_map_mul_right]
    have hcast :
        (genres.dedup.map (fun g => (genres.count g : ℚ))).sum = (genres.length : ℚ) := by
      have h1 : genres.dedup.map (fun g => (genres.count g : ℚ))
          = (genres.dedup.map (fun g => genres.count g)).map (fun n : ℕ => (n : ℚ)) := by
        rw [List.map_map]; rfl
      rw [h1, ← Nat.cast_list_sum, List.sum_map_count_dedup_eq_length]
    rw [hcast]
    have hL : (genres.length : ℚ) ≠ 0 := Nat.cast_ne_zero.mpr h
    field_simp
  · intro h
    rw [genre_percentage_of, if_pos h]

/-- Witness for C4: for three occurrences over two distinct genres the
percentages (200/3 and 100/3) sum to 100. -/
theorem percentage_sum_100_witness :
    ((genre_percentage_of ["rock", "pop", "rock"]).map (fun p => p.2)).sum = 100 :=
  (percentage_sum_100_or_empty ["rock", "pop", "rock"]).1 (by decide)

/-- C8: the tag extractor returns the empty list for an unreadable file or
one with none of the genre tag keys, and otherwise splits the first value
found under the keys `genre`, `GENRE`, `TCON` (in that priority order,
first element if the value is a list) on `;`, trimming and lower-casing
each piece. -/
theorem tag_extractor_spec (f : AudioFile) :
    (f.readable = false → get_genre f = [])
    ∧ ((lookupTag f.tags "genre" <|> lookupTag f.tags "GENRE" <|> lookupTag f.tags "TCON")
        = none → get_genre f = [])
    ∧ (∀ s, f.readable = true →
        (lookupTag f.tags "genre" <|> lookupTag f.tags "GENRE" <|> lookupTag f.tags "TCON")
          = some (TagVal.str s) →
        get_genre f = (splitSemi s).map pieceNorm)
    ∧ (∀ v vs, f.readable = true →
        (lookupTag f.tags "genre" <|> lookupTag f.tags "GENRE" <|> lookupTag f.tags "TCON")
          = some (TagVal.list (v :: vs)) →
        get_genre f = (splitSemi v).map pieceNorm) := by
  obtain ⟨r, tags⟩ := f
  refine ⟨?_, ?_, ?_, ?_⟩
  · intro h; subst h; rfl
  · intro h
    cases r
    · rfl
    · simp [get_genre, h]
  · intro s hr h
    subst hr
    simp [get_genre, h]
  · intro v vs hr h
    subst hr
    simp [get_genre, h]

/-- Witness for C8: a readable file whose only genre key is `TCON` holding
`"Rock; Pop"` yields the trimmed, lower-cased pieces. -/
theorem tag_extractor_spec_witness :
    get_genre ⟨true, [("TCON", TagVal.str "Rock; Pop")]⟩ = ["rock", "pop"] :=
  ((tag_extractor_spec ⟨true, [("TCON", TagVal.str "Rock; Pop")]⟩).2.2.1
    "Rock; Pop" rfl (by rfl)).trans (by decide)

/-- C9: a path is returned by the discoverer exactly when it is a
traversed file joined onto its root whose extension, lower-cased, is in
the audio allow-list. -/
theorem discoverer_exact (walk : List (String × List String)) (p : String) :
    p ∈ get_audio_files walk ↔
      ∃ root files file, (root, files) ∈ walk ∧ file ∈ files ∧
        (pyLower (splitext_ext file)) ∈ audio_extensions ∧ p = joinPath root file := by
  rw [get_audio_files, List.mem_flatten]
  constructor
  · rintro ⟨l, hl, hp⟩
    rw [List.mem_map] at hl
    obtain ⟨rf, hrf, rfl⟩ := hl
    rw [List.mem_map] at hp
    obtain ⟨file, hfile, rfl⟩ := hp
    rw [List.mem_filter] at hfile
    exact ⟨rf.1, rf.2, file, hrf, hfile.1,
      (List.elem_iff).mp hfile.2, rfl⟩
  · rintro ⟨root, files, file, hrf, hfile, hext, rfl⟩
    refine ⟨(files.filter
      (fun file => audio_extensions.contains (pyLower (splitext_ext file)))).map
        (joinPath root), ?_, ?_⟩
    · rw [List.mem_map]
      exact ⟨(root, files), hrf, rfl⟩
    · rw [List.mem_map]
      refine ⟨file, ?_, rfl⟩
      rw [List.mem_filter]
      exact ⟨hfile, (List.elem_iff).mpr hext⟩

/-- Witness for C9: `a.MP3` under root `/m` is discovered. -/
theorem discoverer_exact_witness :
    "/m/a.MP3" ∈ get_audio_files [("/m", ["a.MP3", "b.txt"])] :=
  (discoverer_exact [("/m", ["a.MP3", "b.txt"])] "/m/a.MP3").mpr
    ⟨"/m", ["a.MP3", "b.txt"], "a.MP3", by decide, by decide, by decide, by decide⟩

/-- C3 counterexample: a present but unparseable taxonomy file makes the
JSON parse error propagate out of `main` — the claim that no exception
escapes `main` in the malformed case is false. -/
theorem main_malformed_config_raises :
    SMGA.main ConfigResource.unparseable = Except.error PyErr.jsonDecodeError := rfl

/-- C3 amended: a missing taxonomy file is caught (`main` reports it and
returns unavailability); a malformed file's parse error propagates out of
`main`, because only `FileNotFoundError` is handled; with a parseable file
`main` proceeds with the loaded taxonomy. -/
theorem main_config_error_handling (res : ConfigResource) :
    (res = ConfigResource.absent → SMGA.main res = Except.ok MainResult.unavailable)
    ∧ (res = ConfigResource.unparseable →
        SMGA.main res = Except.error PyErr.jsonDecodeError)
    ∧ (∀ tax, res = ConfigResource.parsed tax →
        SMGA.main res = Except.ok (MainResult.widget tax)) := by
  refine ⟨?_, ?_, ?_⟩ <;> intro h
  · subst h; rfl
  · subst h; rfl
  · intro h2; subst h2; rfl

/-- Witness for C3 (amended): the absent-file case is caught and `main`
returns unavailability. -/
theorem main_config_error_handling_witness :
    SMGA.main ConfigResource.absent = Except.ok MainResult.unavailable :=
  (main_config_error_handling ConfigResource.absent).1 rfl

/-- C1: evaluating `calculate_genre_distribution` with the simplify flag
on the spec's example inputs raises `TypeError` instead of producing
`{rock: 1, electronic: 1}`: the tuple returned by
`map_to_simplified_genres` is never unpacked, so `genres.extend` appends a
list (unhashable) and an int, and `Counter` raises. -/
theorem simplify_distribution_type_error :
    calculate_genre_distribution [fileA, fileB, fileC] true exampleTaxonomy
      = Except.error PyErr.typeError := by rfl

/-- C2: on one file with one genre tag and the simplify flag off, the
function returns the 2-tuple of line 87 — counts and percentages without
the total — not the triple the spec describes (only the zero-total branch
of line 84 returns a triple). -/
theorem distribution_returns_pair_not_triple :
    calculate_genre_distribution [fileA] false exampleTaxonomy
      = Except.ok (DistResult.pair [(PyVal.str "classic rock", 1)]
          [(PyVal.str "classic rock", 100)]) := by
  have h : calculate_genre_distribution [fileA] false exampleTaxonomy
      = Except.ok (DistResult.pair [(PyVal.str "classic rock", 1)]
          [(PyVal.str "classic rock", ((1 : ℕ) : ℚ) / ((1 : ℕ) : ℚ) * 100)]) := rfl
  rw [h]
  norm_num

end SMGA
